import Mathlib

/-!
Verification of the delegation-router design extracted from a collection of
agentic-AI example scripts. The embedded code comes from two files:

* `examples/multi-agent/hierarchical.py` — a manager/worker state graph over a
  shared record (`AgentState`). The manager inspects which result fields are
  still empty and delegates to the research, analysis and writing workers in
  turn, then a finalize node assembles the report. The graph runtime
  (langgraph's `StateGraph`) is embedded as an explicit step function over an
  execution state holding the current node, the shared record and the list of
  node invocations so far; the compiled app's bounded execution is modelled
  with a fuel parameter set to the runtime's default recursion limit of 25.
  The `messages` channel of the Python state (a list of externally-typed chat
  messages appended via `operator.add`) is read by no routing decision and by
  no worker, so it is omitted from the embedded record.

* `examples/planning/plan_and_execute.py` — a plan-and-execute agent. The
  execution phase (the `for step in plan` loop of `run`), `execute_step`,
  `monitor_progress` and `should_replan` are embedded; the language model
  behind `self.llm.invoke` is an injected function `String → String`, and the
  Python float arithmetic of `monitor_progress` is modelled with exact
  rationals. Console printing is side-effect-only in the source and is
  dropped.
-/

/-! ## String helpers mirroring the Python primitives used by the source -/

/-- Python slicing `s[:n]`: the first `n` characters of `s`. -/
def pyTake (s : String) (n : Nat) : String := ⟨s.data.take n⟩

/-- Python `s * n` on strings: `n` copies of `s` concatenated. -/
def pyRepeat (s : String) (n : Nat) : String := String.join (List.replicate n s)

/-- Does `pat` occur at the very start of `l`. -/
def subAt : List Char → List Char → Bool
  | [], _ => true
  | _ :: _, [] => false
  | a :: as, b :: bs => a == b && subAt as bs

/-- Does `pat` occur contiguously anywhere in `l`. -/
def hasSub (pat : List Char) : List Char → Bool
  | [] => subAt pat []
  | c :: rest => subAt pat (c :: rest) || hasSub pat rest

/-- Python's substring test `pat in s`. -/
def pyIn (pat s : String) : Bool := hasSub pat.data s.data

namespace Hierarchical

/-- The shared state threaded between the agents
(`AgentState` of `hierarchical.py`, minus the unused `messages` channel). -/
structure AgentState where
  task : String
  research_results : String
  analysis_results : String
  writing_results : String
  final_output : String
  next_agent : String
deriving DecidableEq

/-- `web_search` of `hierarchical.py`: first knowledge-base key contained in
the lowercased query wins, in the dictionary's insertion order. -/
def web_search (query : String) : String :=
  let knowledge_base : List (String × String) :=
    [("artificial intelligence",
      "AI is transforming industries with machine learning, NLP, and computer vision."),
     ("climate change",
      "Climate change involves rising global temperatures and environmental impacts."),
     ("quantum computing",
      "Quantum computers use qubits to solve complex problems faster than classical computers."),
     ("blockchain",
      "Blockchain is a distributed ledger technology enabling secure, transparent transactions.")]
  match knowledge_base.find? (fun kv => pyIn kv.1 query.toLower) with
  | some kv => "Research finding: " ++ kv.2
  | none => "Research finding: General information about " ++ query

/-- `analyze_data` of `hierarchical.py`. -/
def analyze_data (data : String) : String :=
  "Analysis: The data shows important patterns and trends. Key insight: " ++
    pyTake data 100 ++ "..."

/-- `sentiment_analysis` of `hierarchical.py`. -/
def sentiment_analysis (text : String) : String :=
  let positive_words : List String := ["good", "great", "excellent", "positive", "beneficial"]
  if positive_words.any (fun word => pyIn word text.toLower) then
    "Sentiment: Positive - The content has optimistic and constructive themes"
  else
    "Sentiment: Neutral - The content presents factual information"

/-- `generate_summary` of `hierarchical.py`. -/
def generate_summary (content : String) : String :=
  "Summary: " ++ pyTake content 150 ++ "... [Content summarized]"

/-- `ResearchAgent.research`: the research worker's string output. -/
def researchAgent_research (topic : String) : String :=
  "Research completed on '" ++ topic ++ "': " ++ web_search topic

/-- `AnalysisAgent.analyze`: the analysis worker's string output. -/
def analysisAgent_analyze (data : String) : String :=
  "Analysis complete: " ++ analyze_data data ++ "\n" ++ sentiment_analysis data

/-- `WritingAgent.write`: the writing worker's string output
(the triple-quoted report template of the source). -/
def writingAgent_write (content : String) : String :=
  "\n📝 Written Report:\n\n" ++ generate_summary content ++
    "\n\nThis report synthesizes the research and analysis findings into a coherent narrative.\nThe content has been structured for clarity and impact.\n"

/-- The three worker functions the nodes call. The source holds them as the
module-level agent objects `research_agent`, `analysis_agent`,
`writing_agent`; bundling them lets theorems also quantify over the worker
outputs, as the design treats workers as injectable collaborators. -/
structure Workers where
  research : String → String
  analyze : String → String
  write : String → String

/-- The module-level agent instances of `hierarchical.py`. -/
def sourceWorkers : Workers :=
  { research := researchAgent_research
    analyze := analysisAgent_analyze
    write := writingAgent_write }

/-- `manager_node` of `hierarchical.py`: the priority-ordered emptiness checks
that pick the next agent and write it into `next_agent`. -/
def manager_node (state : AgentState) : AgentState :=
  if state.research_results = "" then { state with next_agent := "research" }
  else if state.analysis_results = "" then { state with next_agent := "analysis" }
  else if state.writing_results = "" then { state with next_agent := "writing" }
  else { state with next_agent := "finalize" }

/-- `research_node` of `hierarchical.py`. -/
def research_node (W : Workers) (state : AgentState) : AgentState :=
  { state with research_results := W.research state.task, next_agent := "manager" }

/-- `analysis_node` of `hierarchical.py`: the analysis worker consumes
`research_results`. -/
def analysis_node (W : Workers) (state : AgentState) : AgentState :=
  { state with analysis_results := W.analyze state.research_results, next_agent := "manager" }

/-- `writing_node` of `hierarchical.py`: the writing worker consumes the
research and analysis results joined by a blank line. -/
def writing_node (W : Workers) (state : AgentState) : AgentState :=
  { state with
      writing_results := W.write (state.research_results ++ "\n\n" ++ state.analysis_results)
      next_agent := "manager" }

/-- The final report template of `finalize_node` (its f-string). -/
def finalReport (task research analysis writing : String) : String :=
  "\n" ++ pyRepeat "=" 70 ++ "\nFINAL REPORT\n" ++ pyRepeat "=" 70 ++ "\n\nTask: " ++ task ++
    "\n\n" ++ research ++ "\n\n" ++ analysis ++ "\n\n" ++ writing ++ "\n\n" ++
    pyRepeat "=" 70 ++ "\nReport complete.\n" ++ pyRepeat "=" 70 ++ "\n"

/-- `finalize_node` of `hierarchical.py`. -/
def finalize_node (state : AgentState) : AgentState :=
  { state with
      final_output :=
        finalReport state.task state.research_results state.analysis_results state.writing_results
      next_agent := "end" }

/-- langgraph's terminal sentinel `END`. -/
def END : String := "__end__"

/-- `route_agent` of `hierarchical.py`. The Python function reads
`state.get("next_agent", "manager")` from the state dictionary, so its input
is modelled as the possibly-missing value of the `next_agent` key; the
`routing` dictionary lookup is guarded with `.get(..., END)`. -/
def route_agent (next_agent_field : Option String) : String :=
  let next_agent := next_agent_field.getD "manager"
  let routing : List (String × String) :=
    [("manager", "manager"), ("research", "research"), ("analysis", "analysis"),
     ("writing", "writing"), ("finalize", "finalize"), ("end", END)]
  (routing.lookup next_agent).getD END

/-- The five nodes of the workflow graph built by `create_hierarchical_workflow`. -/
inductive Node where
  | manager
  | research
  | analysis
  | writing
  | finalize
deriving DecidableEq

/-- The node functions, as added by `workflow.add_node`. -/
def nodeFn (W : Workers) : Node → AgentState → AgentState
  | .manager => manager_node
  | .research => research_node W
  | .analysis => analysis_node W
  | .writing => writing_node W
  | .finalize => finalize_node

/-- The conditional-edges mapping of `add_conditional_edges`: the label
`route_agent` returns, resolved to a graph node (`END` terminates). -/
def edgeTarget (label : String) : Option Node :=
  if label = "manager" then some .manager
  else if label = "research" then some .research
  else if label = "analysis" then some .analysis
  else if label = "writing" then some .writing
  else if label = "finalize" then some .finalize
  else none

/-- Where control goes after a node runs, per the edges of
`create_hierarchical_workflow`: the manager routes via `route_agent` over the
state it just produced, each worker has a direct edge back to the manager,
and `finalize` has a direct edge to `END`. -/
def nextNode : Node → AgentState → Option Node
  | .manager, s => edgeTarget (route_agent (some s.next_agent))
  | .research, _ => some .manager
  | .analysis, _ => some .manager
  | .writing, _ => some .manager
  | .finalize, _ => none

/-- One execution state of the compiled workflow: the node about to run
(`none` once `END` is reached), the shared record, and the invocation log. -/
structure ExecState where
  current : Option Node
  st : AgentState
  log : List Node
deriving DecidableEq

/-- One superstep of the compiled workflow: run the current node, record the
invocation, and follow the graph's edge. -/
def stepExec (W : Workers) (e : ExecState) : ExecState :=
  match e.current with
  | none => e
  | some n =>
    let s := nodeFn W n e.st
    { current := nextNode n s, st := s, log := e.log ++ [n] }

/-- The initial state `main` passes to `app.invoke`: only `task` is set,
all result fields are empty, `next_agent` is `"manager"`. -/
def initial_state (task : String) : AgentState :=
  { task := task, research_results := "", analysis_results := "", writing_results := ""
    final_output := "", next_agent := "manager" }

/-- The compiled app starts at the entry point `manager` with an empty log. -/
def initExec (task : String) : ExecState :=
  { current := some .manager, st := initial_state task, log := [] }

/-- Run up to `fuel` supersteps of the compiled workflow. -/
def runExec (W : Workers) : Nat → ExecState → ExecState
  | 0, e => e
  | k + 1, e =>
    match e.current with
    | none => e
    | some _ => runExec W k (stepExec W e)

/-- `app.invoke(initial_state)`: the workflow run on one task, bounded by
langgraph's default recursion limit of 25 supersteps. -/
def run (W : Workers) (task : String) : ExecState := runExec W 25 (initExec task)

/-- The spec's enumerated step labels. -/
inductive Step where
  | RESEARCH
  | ANALYSIS
  | WRITING
  | FINALIZE
deriving DecidableEq

/-- The worker label each spec step stands for in the code. -/
def stepLabel : Step → String
  | .RESEARCH => "research"
  | .ANALYSIS => "analysis"
  | .WRITING => "writing"
  | .FINALIZE => "finalize"

/-- The spec's `select_next`, stated from the spec's own words (section 4.1:
a priority-ordered predicate chain, checked in fixed order, first match
wins) for comparison against the code's `manager_node`. -/
def select_next (record : AgentState) : Step :=
  if record.research_results = "" then .RESEARCH
  else if record.analysis_results = "" then .ANALYSIS
  else if record.writing_results = "" then .WRITING
  else .FINALIZE

/-- The execution states a run visits, indexed by superstep count, assuming
each worker output read by the manager is non-empty (indices 8 and above all
give the terminal state). Used through `runExec_traces` below. -/
def traceExec (W : Workers) (task : String) : Nat → ExecState
  | 0 => initExec task
  | 1 =>
    { current := some .research
      st := { task := task, research_results := "", analysis_results := ""
              writing_results := "", final_output := "", next_agent := "research" }
      log := [.manager] }
  | 2 =>
    { current := some .manager
      st := { task := task, research_results := W.research task, analysis_results := ""
              writing_results := "", final_output := "", next_agent := "manager" }
      log := [.manager, .research] }
  | 3 =>
    { current := some .analysis
      st := { task := task, research_results := W.research task, analysis_results := ""
              writing_results := "", final_output := "", next_agent := "analysis" }
      log := [.manager, .research, .manager] }
  | 4 =>
    { current := some .manager
      st := { task := task, research_results := W.research task
              analysis_results := W.analyze (W.research task)
              writing_results := "", final_output := "", next_agent := "manager" }
      log := [.manager, .research, .manager, .analysis] }
  | 5 =>
    { current := some .writing
      st := { task := task, research_results := W.research task
              analysis_results := W.analyze (W.research task)
              writing_results := "", final_output := "", next_agent := "writing" }
      log := [.manager, .research, .manager, .analysis, .manager] }
  | 6 =>
    { current := some .manager
      st := { task := task, research_results := W.research task
              analysis_results := W.analyze (W.research task)
              writing_results := W.write (W.research task ++ "\n\n" ++ W.analyze (W.research task))
              final_output := "", next_agent := "manager" }
      log := [.manager, .research, .manager, .analysis, .manager, .writing] }
  | 7 =>
    { current := some .finalize
      st := { task := task, research_results := W.research task
              analysis_results := W.analyze (W.research task)
              writing_results := W.write (W.research task ++ "\n\n" ++ W.analyze (W.research task))
              final_output := "", next_agent := "finalize" }
      log := [.manager, .research, .manager, .analysis, .manager, .writing, .manager] }
  | 8 =>
    { current := none
      st := { task := task, research_results := W.research task
              analysis_results := W.analyze (W.research task)
              writing_results := W.write (W.research task ++ "\n\n" ++ W.analyze (W.research task))
              final_output :=
                finalReport task (W.research task) (W.analyze (W.research task))
                  (W.write (W.research task ++ "\n\n" ++ W.analyze (W.research task)))
              next_agent := "end" }
      log := [.manager, .research, .manager, .analysis, .manager, .writing, .manager, .finalize] }
  | _ + 9 =>
    { current := none
      st := { task := task, research_results := W.research task
              analysis_results := W.analyze (W.research task)
              writing_results := W.write (W.research task ++ "\n\n" ++ W.analyze (W.research task))
              final_output :=
                finalReport task (W.research task) (W.analyze (W.research task))
                  (W.write (W.research task ++ "\n\n" ++ W.analyze (W.research task)))
              next_agent := "end" }
      log := [.manager, .research, .manager, .analysis, .manager, .writing, .manager, .finalize] }

/-- Stub workers returning the fixed outputs of the spec's worked example. -/
def demoWorkers : Workers :=
  { research := fun _ => "R", analyze := fun _ => "A", write := fun _ => "W" }

end Hierarchical

namespace Planning

/-- One step of a plan, as `create_plan` returns them. -/
structure PlanStep where
  step_number : Int
  description : String
  estimated_complexity : String
deriving DecidableEq

/-- The result dictionary `execute_step` builds and appends to the log. -/
structure StepResult where
  step_number : Int
  description : String
  output : String
  status : String
  timestamp : String
deriving DecidableEq

/-- The prompt `execute_step` sends to the language model. -/
def execution_prompt (step : PlanStep) (context : String) : String :=
  "Execute this step:\n\nStep: " ++ step.description ++ "\nComplexity: " ++
    step.estimated_complexity ++ "\n\nContext from previous steps:\n" ++ context ++
    "\n\nProvide:\n1. What you did\n2. The result\n3. Any issues encountered\n4. Whether this step is complete\n\nResponse:"

/-- `PlanAndExecuteAgent.execute_step`, with the model behind
`self.llm.invoke` injected as `llm`. -/
def execute_step (llm : String → String) (step : PlanStep) (context : String) : StepResult :=
  { step_number := step.step_number
    description := step.description
    output := llm (execution_prompt step context)
    status := "completed"
    timestamp := "now" }

/-- `PlanAndExecuteAgent.should_replan`: the two lowercase substring checks
over the last result's output. -/
def should_replan (last_result : StepResult) : Bool :=
  pyIn "error" last_result.output.toLower || pyIn "failed" last_result.output.toLower

/-- The execution phase of `PlanAndExecuteAgent.run` (`for step in plan`):
each step is executed once, its result appended to the execution log, and the
context extended with the first 200 characters of the output.
`monitor_progress` and `should_replan` are also called there, but only to
print: neither changes the loop's control flow or state. -/
def execLoop (llm : String → String) :
    List PlanStep → String → List StepResult → String × List StepResult
  | [], context, log => (context, log)
  | step :: rest, context, log =>
    let result := execute_step llm step context
    let context2 := context ++ "Step " ++ toString step.step_number ++ ": " ++
      pyTake result.output 200 ++ "...\n\n"
    execLoop llm rest context2 (log ++ [result])

/-- The progress dictionary `monitor_progress` returns; the Python float
percentage is modelled as an exact rational. -/
structure Progress where
  total_steps : Nat
  completed_steps : Nat
  progress_percentage : ℚ
  remaining_steps : Int
deriving DecidableEq

/-- `PlanAndExecuteAgent.monitor_progress` over the agent's current plan and
execution log. -/
def monitor_progress (current_plan : List PlanStep) (execution_log : List StepResult) : Progress :=
  let total_steps := current_plan.length
  let completed_steps := execution_log.length
  { total_steps := total_steps
    completed_steps := completed_steps
    progress_percentage :=
      if 0 < total_steps then (completed_steps : ℚ) / (total_steps : ℚ) * 100 else 0
    remaining_steps := (total_steps : Int) - (completed_steps : Int) }

end Planning

/-! ## Helper lemmas -/

open Hierarchical Planning

/-- A concatenation whose left part is non-empty is non-empty. -/
theorem append_ne_left (s t : String) (h : s ≠ "") : s ++ t ≠ "" := by
  intro he
  apply h
  have hd := congrArg String.data he
  rw [String.data_append] at hd
  exact String.ext (List.append_eq_nil.mp hd).1

/-- Correctness of the prefix matcher: `subAt pat l` holds exactly when `l`
starts with `pat`. -/
theorem subAt_iff (pat : List Char) : ∀ l, subAt pat l = true ↔ ∃ q, l = pat ++ q := by
  induction pat with
  | nil => intro l; simp [subAt]
  | cons a as ih =>
    intro l
    cases l with
    | nil => simp [subAt]
    | cons b bs =>
      simp only [subAt, Bool.and_eq_true, beq_iff_eq, ih bs, List.cons_append, List.cons.injEq]
      constructor
      · rintro ⟨hab, q, hq⟩
        exact ⟨q, hab.symm, hq⟩
      · rintro ⟨q, hba, hq⟩
        exact ⟨hba.symm, q, hq⟩

/-- Correctness of the substring scanner: `hasSub pat l` holds exactly when
`pat` occurs contiguously in `l`. -/
theorem hasSub_iff (pat : List Char) : ∀ l, hasSub pat l = true ↔ ∃ p q, l = p ++ pat ++ q := by
  intro l
  induction l with
  | nil =>
    simp only [hasSub, subAt_iff]
    constructor
    · rintro ⟨q, hq⟩
      exact ⟨[], q, by simpa using hq⟩
    · rintro ⟨p, q, hq⟩
      have h1 := List.append_eq_nil.mp hq.symm
      have h2 := List.append_eq_nil.mp h1.1
      exact ⟨[], by simp [h2.2]⟩
  | cons c rest ih =>
    simp only [hasSub, Bool.or_eq_true, subAt_iff, ih]
    constructor
    · rintro (⟨q, hq⟩ | ⟨p, q, hq⟩)
      · exact ⟨[], q, by simpa using hq⟩
      · exact ⟨c :: p, q, by simp [hq]⟩
    · rintro ⟨p, q, hq⟩
      cases p with
      | nil => exact Or.inl ⟨q, by simpa using hq⟩
      | cons c2 p2 =>
        simp only [List.cons_append, List.cons.injEq] at hq
        exact Or.inr ⟨p2, q, hq.2⟩

/-- Correctness of the embedded Python `in` operator on strings. -/
theorem pyIn_iff (pat s : String) : pyIn pat s = true ↔ ∃ p q : String, s = p ++ pat ++ q := by
  unfold pyIn
  rw [hasSub_iff]
  constructor
  · rintro ⟨p, q, h⟩
    refine ⟨⟨p⟩, ⟨q⟩, ?_⟩
    apply String.ext
    rw [String.data_append, String.data_append]
    exact h
  · rintro ⟨p, q, h⟩
    refine ⟨p.data, q.data, ?_⟩
    have hd := congrArg String.data h
    rw [String.data_append, String.data_append] at hd
    exact hd

/-- A terminated execution state is a fixed point of the bounded runner. -/
theorem runExec_of_none (W : Workers) (k : Nat) (e : ExecState) (h : e.current = none) :
    runExec W k e = e := by
  cases k with
  | zero => rfl
  | succ k => simp [runExec, h]

/-- Fuel for the bounded runner splits additively. -/
theorem runExec_add (W : Workers) (a b : Nat) (e : ExecState) :
    runExec W (a + b) e = runExec W b (runExec W a e) := by
  induction a generalizing e with
  | zero => simp [runExec]
  | succ a ih =>
    cases hc : e.current with
    | none =>
      rw [runExec_of_none W (a + 1 + b) e hc, runExec_of_none W (a + 1) e hc,
        runExec_of_none W b e hc]
    | some n =>
      have h1 : runExec W (a + 1 + b) e = runExec W (a + b) (stepExec W e) := by
        have h2 : a + 1 + b = (a + b) + 1 := by omega
        rw [h2]
        simp [runExec, hc]
      have h3 : runExec W (a + 1) e = runExec W a (stepExec W e) := by
        simp [runExec, hc]
      rw [h1, ih, h3]

/-- The workflow's full trace: when the three worker outputs the manager
inspects are non-empty, running `k` supersteps from the initial state reaches
exactly the `min k 8`-th state of `traceExec`; in particular the run
terminates after 8 supersteps. -/
theorem runExec_traces (W : Workers) (task : String)
    (hr : W.research task ≠ "")
    (ha : W.analyze (W.research task) ≠ "")
    (hw : W.write (W.research task ++ "\n\n" ++ W.analyze (W.research task)) ≠ "") :
    ∀ k, runExec W k (initExec task) = traceExec W task (min k 8) := by
  intro k
  induction k with
  | zero => simp [runExec, traceExec]
  | succ k ih =>
    rw [runExec_add W k 1, ih]
    by_cases hk : k < 8
    · interval_cases k
      · show runExec W 1 (traceExec W task 0) = traceExec W task 1
        simp [runExec, stepExec, traceExec, nodeFn, manager_node, nextNode, initExec,
          initial_state,
          show edgeTarget (route_agent (some "research")) = some Node.research from rfl]
      · show runExec W 1 (traceExec W task 1) = traceExec W task 2
        simp [runExec, stepExec, traceExec, nodeFn, research_node, nextNode]
      · show runExec W 1 (traceExec W task 2) = traceExec W task 3
        simp [runExec, stepExec, traceExec, nodeFn, manager_node, nextNode, hr,
          show edgeTarget (route_agent (some "analysis")) = some Node.analysis from rfl]
      · show runExec W 1 (traceExec W task 3) = traceExec W task 4
        simp [runExec, stepExec, traceExec, nodeFn, analysis_node, nextNode]
      · show runExec W 1 (traceExec W task 4) = traceExec W task 5
        simp [runExec, stepExec, traceExec, nodeFn, manager_node, nextNode, hr, ha,
          show edgeTarget (route_agent (some "writing")) = some Node.writing from rfl]
      · show runExec W 1 (traceExec W task 5) = traceExec W task 6
        simp [runExec, stepExec, traceExec, nodeFn, writing_node, nextNode]
      · show runExec W 1 (traceExec W task 6) = traceExec W task 7
        simp [runExec, stepExec, traceExec, nodeFn, manager_node, nextNode, hr, ha, hw,
          show edgeTarget (route_agent (some "finalize")) = some Node.finalize from rfl]
      · show runExec W 1 (traceExec W task 7) = traceExec W task 8
        simp [runExec, stepExec, traceExec, nodeFn, finalize_node, nextNode]
    · have h8 : 8 ≤ k := by omega
      rw [min_eq_right h8, min_eq_right (by omega : 8 ≤ k + 1)]
      exact runExec_of_none W 1 _ rfl

/-- The source's research worker always returns a non-empty string. -/
theorem sourceWorkers_research_ne (t : String) : sourceWorkers.research t ≠ "" := by
  show researchAgent_research t ≠ ""
  unfold researchAgent_research
  exact append_ne_left _ _ (append_ne_left _ _ (append_ne_left _ _ (by decide)))

/-- The source's analysis worker always returns a non-empty string. -/
theorem sourceWorkers_analyze_ne (t : String) : sourceWorkers.analyze t ≠ "" := by
  show analysisAgent_analyze t ≠ ""
  unfold analysisAgent_analyze
  exact append_ne_left _ _ (append_ne_left _ _ (append_ne_left _ _ (by decide)))

/-- The source's writing worker always returns a non-empty string. -/
theorem sourceWorkers_write_ne (t : String) : sourceWorkers.write t ≠ "" := by
  show writingAgent_write t ≠ ""
  unfold writingAgent_write
  exact append_ne_left _ _ (append_ne_left _ _ (by decide))

/-- The trace characterization, instantiated at the source's workers. -/
theorem src_run_eq (task : String) :
    ∀ k, runExec sourceWorkers k (initExec task) = traceExec sourceWorkers task (min k 8) :=
  runExec_traces sourceWorkers task (sourceWorkers_research_ne task)
    (sourceWorkers_analyze_ne _) (sourceWorkers_write_ne _)

/-- Trace characterization below the terminal index. -/
theorem src_run_le (task : String) (k : Nat) (hk : k ≤ 8) :
    runExec sourceWorkers k (initExec task) = traceExec sourceWorkers task k := by
  have h := src_run_eq task k
  rwa [min_eq_left hk] at h

/-- Trace characterization at and beyond the terminal index. -/
theorem src_run_ge (task : String) (k : Nat) (hk : 8 ≤ k) :
    runExec sourceWorkers k (initExec task) = traceExec sourceWorkers task 8 := by
  have h := src_run_eq task k
  rwa [min_eq_right hk] at h

/-! ## The claims -/

/-- C1: `manager_node` implements the spec's priority-ordered predicate chain
`select_next`, checked in fixed order with first match winning: the worker
label it writes into `next_agent` is exactly the label of the spec step — for
every record, RESEARCH when `research_results` is empty, else ANALYSIS when
`analysis_results` is empty, else WRITING when `writing_results` is empty,
else FINALIZE. -/
theorem claim_C1 (s : AgentState) :
    (manager_node s).next_agent = stepLabel (select_next s) := by
  by_cases h1 : s.research_results = "" <;> by_cases h2 : s.analysis_results = "" <;>
    by_cases h3 : s.writing_results = "" <;>
      simp [manager_node, select_next, stepLabel, h1, h2, h3]

/-- C2: for every task string, the workflow run with the source's workers
terminates, its invocation log is exactly manager, research, manager,
analysis, manager, writing, manager, finalize — so exactly four
worker/finalize invocations in the fixed order research, analysis, writing,
finalize with no retries and no skipping, and exactly 4 manager (routing)
iterations — and each worker starts only after the previous one's result is
recorded: when the analysis node is about to run the research result is
already stored, and likewise for the writing and finalize nodes. -/
theorem claim_C2 (task : String) :
    (run sourceWorkers task).current = none ∧
    (run sourceWorkers task).log =
      [Node.manager, Node.research, Node.manager, Node.analysis, Node.manager, Node.writing,
       Node.manager, Node.finalize] ∧
    (run sourceWorkers task).log.filter (fun n => n != Node.manager) =
      [Node.research, Node.analysis, Node.writing, Node.finalize] ∧
    ((run sourceWorkers task).log.filter (fun n => n == Node.manager)).length = 4 ∧
    (runExec sourceWorkers 3 (initExec task)).current = some Node.analysis ∧
    (runExec sourceWorkers 3 (initExec task)).st.research_results = sourceWorkers.research task ∧
    (runExec sourceWorkers 5 (initExec task)).current = some Node.writing ∧
    (runExec sourceWorkers 5 (initExec task)).st.analysis_results =
      sourceWorkers.analyze (sourceWorkers.research task) ∧
    (runExec sourceWorkers 7 (initExec task)).current = some Node.finalize ∧
    (runExec sourceWorkers 7 (initExec task)).st.writing_results =
      sourceWorkers.write (sourceWorkers.research task ++ "\n\n" ++
        sourceWorkers.analyze (sourceWorkers.research task)) := by
  have h25 : run sourceWorkers task = traceExec sourceWorkers task 8 := src_run_eq task 25
  have h3 : runExec sourceWorkers 3 (initExec task) = traceExec sourceWorkers task 3 :=
    src_run_le task 3 (by omega)
  have h5 : runExec sourceWorkers 5 (initExec task) = traceExec sourceWorkers task 5 :=
    src_run_le task 5 (by omega)
  have h7 : runExec sourceWorkers 7 (initExec task) = traceExec sourceWorkers task 7 :=
    src_run_le task 7 (by omega)
  rw [h25, h3, h5, h7]
  exact ⟨rfl, rfl, rfl, rfl, rfl, rfl, rfl, rfl, rfl, rfl⟩

/-- C3: over every state reachable during a run with the source's workers
(the state after `k` supersteps, for every `k`), the result fields are
populated in the fixed order research → analysis → writing (a non-empty
`writing_results` implies a non-empty `analysis_results`, which implies a
non-empty `research_results`); each result field, once non-empty, is never
changed by a further step; a step changes `research_results` only when the
research node runs on a state where it was empty, and it stores the research
worker's output on the task — and likewise `analysis_results` is only set by
the analysis node from the stored research result, and `writing_results` only
by the writing node from the stored research and analysis results joined by a
blank line, so each worker after the first consumes the prior worker's result
as its input context. -/
theorem claim_C3 (task : String) (k : Nat) :
    ((runExec sourceWorkers k (initExec task)).st.writing_results ≠ "" →
      (runExec sourceWorkers k (initExec task)).st.analysis_results ≠ "") ∧
    ((runExec sourceWorkers k (initExec task)).st.analysis_results ≠ "" →
      (runExec sourceWorkers k (initExec task)).st.research_results ≠ "") ∧
    ((runExec sourceWorkers k (initExec task)).st.research_results ≠ "" →
      (runExec sourceWorkers (k + 1) (initExec task)).st.research_results =
        (runExec sourceWorkers k (initExec task)).st.research_results) ∧
    ((runExec sourceWorkers k (initExec task)).st.analysis_results ≠ "" →
      (runExec sourceWorkers (k + 1) (initExec task)).st.analysis_results =
        (runExec sourceWorkers k (initExec task)).st.analysis_results) ∧
    ((runExec sourceWorkers k (initExec task)).st.writing_results ≠ "" →
      (runExec sourceWorkers (k + 1) (initExec task)).st.writing_results =
        (runExec sourceWorkers k (initExec task)).st.writing_results) ∧
    ((runExec sourceWorkers (k + 1) (initExec task)).st.research_results ≠
        (runExec sourceWorkers k (initExec task)).st.research_results →
      (runExec sourceWorkers k (initExec task)).current = some Node.research ∧
      (runExec sourceWorkers k (initExec task)).st.research_results = "" ∧
      (runExec sourceWorkers (k + 1) (initExec task)).st.research_results =
        sourceWorkers.research (runExec sourceWorkers k (initExec task)).st.task) ∧
    ((runExec sourceWorkers (k + 1) (initExec task)).st.analysis_results ≠
        (runExec sourceWorkers k (initExec task)).st.analysis_results →
      (runExec sourceWorkers k (initExec task)).current = some Node.analysis ∧
      (runExec sourceWorkers k (initExec task)).st.analysis_results = "" ∧
      (runExec sourceWorkers (k + 1) (initExec task)).st.analysis_results =
        sourceWorkers.analyze (runExec sourceWorkers k (initExec task)).st.research_results) ∧
    ((runExec sourceWorkers (k + 1) (initExec task)).st.writing_results ≠
        (runExec sourceWorkers k (initExec task)).st.writing_results →
      (runExec sourceWorkers k (initExec task)).current = some Node.writing ∧
      (runExec sourceWorkers k (initExec task)).st.writing_results = "" ∧
      (runExec sourceWorkers (k + 1) (initExec task)).st.writing_results =
        sourceWorkers.write ((runExec sourceWorkers k (initExec task)).st.research_results ++
          "\n\n" ++ (runExec sourceWorkers k (initExec task)).st.analysis_results)) := by
  by_cases hk : k < 8
  · have e1 : runExec sourceWorkers k (initExec task) = traceExec sourceWorkers task k :=
      src_run_le task k (by omega)
    have e2 : runExec sourceWorkers (k + 1) (initExec task) =
        traceExec sourceWorkers task (k + 1) :=
      src_run_le task (k + 1) (by omega)
    rw [e1, e2]
    interval_cases k <;>
      simp [traceExec, initExec, initial_state, sourceWorkers_research_ne,
        sourceWorkers_analyze_ne, sourceWorkers_write_ne]
  · have e1 : runExec sourceWorkers k (initExec task) = traceExec sourceWorkers task 8 :=
      src_run_ge task k (by omega)
    have e2 : runExec sourceWorkers (k + 1) (initExec task) = traceExec sourceWorkers task 8 :=
      src_run_ge task (k + 1) (by omega)
    rw [e1, e2]
    simp [traceExec, sourceWorkers_research_ne, sourceWorkers_analyze_ne, sourceWorkers_write_ne]

/-- C4: for every task string and workers whose three outputs (as actually
consumed along the run) are produced, the final report set by the finalize
step contains the task text and all three worker results verbatim, in the
fixed order task, research, analysis, writing: the report decomposes as
interleaving filler around exactly those four substrings in that relative
order. -/
theorem claim_C4 (W : Workers) (task : String)
    (hr : W.research task ≠ "")
    (ha : W.analyze (W.research task) ≠ "")
    (hw : W.write (W.research task ++ "\n\n" ++ W.analyze (W.research task)) ≠ "") :
    ∃ p₀ p₁ p₂ p₃ p₄ : String,
      (run W task).st.final_output =
        p₀ ++ task ++ p₁ ++ W.research task ++ p₂ ++ W.analyze (W.research task) ++ p₃ ++
          W.write (W.research task ++ "\n\n" ++ W.analyze (W.research task)) ++ p₄ := by
  have h : run W task = traceExec W task 8 := runExec_traces W task hr ha hw 25
  rw [h]
  refine ⟨"\n" ++ pyRepeat "=" 70 ++ "\nFINAL REPORT\n" ++ pyRepeat "=" 70 ++ "\n\nTask: ",
    "\n\n", "\n\n", "\n\n",
    "\n\n" ++ pyRepeat "=" 70 ++ "\nReport complete.\n" ++ pyRepeat "=" 70 ++ "\n", ?_⟩
  show finalReport task (W.research task) (W.analyze (W.research task))
      (W.write (W.research task ++ "\n\n" ++ W.analyze (W.research task))) = _
  simp [finalReport, String.append_assoc]

/-- C4 witness: the spec's worked example — `run "demo"` with workers
returning "R", "A", "W" yields a report containing "demo", "R", "A", "W" as
substrings in that relative order. -/
theorem claim_C4_witness :
    demoWorkers.research "demo" ≠ "" ∧
    demoWorkers.analyze (demoWorkers.research "demo") ≠ "" ∧
    demoWorkers.write (demoWorkers.research "demo" ++ "\n\n" ++
      demoWorkers.analyze (demoWorkers.research "demo")) ≠ "" ∧
    (∃ p₀ p₁ p₂ p₃ p₄ : String,
      (run demoWorkers "demo").st.final_output =
        p₀ ++ "demo" ++ p₁ ++ demoWorkers.research "demo" ++ p₂ ++
          demoWorkers.analyze (demoWorkers.research "demo") ++ p₃ ++
          demoWorkers.write (demoWorkers.research "demo" ++ "\n\n" ++
            demoWorkers.analyze (demoWorkers.research "demo")) ++ p₄) :=
  ⟨by decide, by decide, by decide,
    claim_C4 demoWorkers "demo" (by decide) (by decide) (by decide)⟩

/-- C5: the router's field-emptiness check treats any non-empty string in a
result field — an error-describing message included — as that step being
complete and advances past it: for every record and non-empty string `t`,
after `t` is written to `research_results` the manager no longer selects
"research", and likewise for the analysis and writing fields. -/
theorem claim_C5 (s : AgentState) (t : String) (h : t ≠ "") :
    (manager_node { s with research_results := t }).next_agent ≠ "research" ∧
    (manager_node { s with analysis_results := t }).next_agent ≠ "analysis" ∧
    (manager_node { s with writing_results := t }).next_agent ≠ "writing" := by
  refine ⟨?_, ?_, ?_⟩ <;>
    by_cases h1 : s.research_results = "" <;> by_cases h2 : s.analysis_results = "" <;>
      by_cases h3 : s.writing_results = "" <;>
        simp [manager_node, h, h1, h2, h3]

/-- C5 witness: writing the non-empty (error-like) string "oops" into each
result field of a fresh record makes the manager advance past that step. -/
theorem claim_C5_witness :
    ("oops" : String) ≠ "" ∧
    ((manager_node { initial_state "t" with research_results := "oops" }).next_agent ≠ "research" ∧
     (manager_node { initial_state "t" with analysis_results := "oops" }).next_agent ≠ "analysis" ∧
     (manager_node { initial_state "t" with writing_results := "oops" }).next_agent ≠ "writing") :=
  ⟨by decide, claim_C5 (initial_state "t") "oops" (by decide)⟩

/-- C6 counterexample: `manager_node` does not leave the record unchanged —
on a fresh record (where `next_agent` is "manager") it overwrites
`next_agent` with "research", so the call has a visible effect on the
record. -/
theorem claim_C6_counterexample :
    manager_node (initial_state "t") ≠ initial_state "t" := by decide

/-- C6 (amended): the selection is idempotent and deterministic — applying
`manager_node` twice equals applying it once, so repeated calls on the same
record keep returning the same step — and the call changes no field of the
record other than the router-owned `next_agent`: the task, the three result
fields and the final output are all preserved. -/
theorem claim_C6 (s : AgentState) :
    manager_node (manager_node s) = manager_node s ∧
    (manager_node s).task = s.task ∧
    (manager_node s).research_results = s.research_results ∧
    (manager_node s).analysis_results = s.analysis_results ∧
    (manager_node s).writing_results = s.writing_results ∧
    (manager_node s).final_output = s.final_output := by
  by_cases h1 : s.research_results = "" <;> by_cases h2 : s.analysis_results = "" <;>
    by_cases h3 : s.writing_results = "" <;>
      simp [manager_node, h1, h2, h3]

/-- C7: in the planning-pattern example, `should_replan` returns true exactly
when the last result's lowercased output contains the substring "error" or
"failed"; and whatever `should_replan` returns, the execution loop of `run`
never redoes a step — for every injected model, plan, starting context and
starting log, the loop appends to the log exactly one result per plan step,
in plan order (projected to step number and description). -/
theorem claim_C7 :
    (∀ r : StepResult, should_replan r = true ↔
      ((∃ p q : String, r.output.toLower = p ++ "error" ++ q) ∨
       (∃ p q : String, r.output.toLower = p ++ "failed" ++ q))) ∧
    (∀ (llm : String → String) (plan : List PlanStep) (context : String) (log : List StepResult),
      (execLoop llm plan context log).2.map (fun res => (res.step_number, res.description)) =
        log.map (fun res => (res.step_number, res.description)) ++
          plan.map (fun step => (step.step_number, step.description))) := by
  constructor
  · intro r
    unfold should_replan
    rw [Bool.or_eq_true, pyIn_iff, pyIn_iff]
  · intro llm plan
    induction plan with
    | nil => intro context log; simp [execLoop]
    | cons step rest ih =>
      intro context log
      simp [execLoop, execute_step, ih]

/-- C8: `route_agent` is total over all `next_agent` values — for every label
outside the six known ones (manager, research, analysis, writing, finalize,
end) the guarded dictionary lookup returns the terminal `END` value instead
of raising, and a missing `next_agent` key defaults to "manager". -/
theorem claim_C8 (na : String)
    (h : na ∉ (["manager", "research", "analysis", "writing", "finalize", "end"] : List String)) :
    route_agent (some na) = END ∧ route_agent none = "manager" := by
  simp only [List.mem_cons, List.not_mem_nil, or_false, not_or] at h
  obtain ⟨h1, h2, h3, h4, h5, h6⟩ := h
  constructor
  · simp [route_agent, List.lookup, beq_eq_false_iff_ne.mpr h1, beq_eq_false_iff_ne.mpr h2,
      beq_eq_false_iff_ne.mpr h3, beq_eq_false_iff_ne.mpr h4, beq_eq_false_iff_ne.mpr h5,
      beq_eq_false_iff_ne.mpr h6]
  · rfl

/-- C8 witness: the unknown label "bogus" routes to `END` rather than
raising, and a missing `next_agent` key defaults to "manager". -/
theorem claim_C8_witness :
    ("bogus" : String) ∉
      (["manager", "research", "analysis", "writing", "finalize", "end"] : List String) ∧
    (route_agent (some "bogus") = END ∧ route_agent none = "manager") :=
  ⟨by decide, claim_C8 "bogus" (by decide)⟩

/-- C9: every non-manager node hands control back deterministically — each of
the three worker nodes sets `next_agent` to "manager" and `finalize_node`
sets it to "end", and the graph's direct edges send each worker back to the
manager node while `finalize` terminates, so after any worker step the
manager is always the next node to run. -/
theorem claim_C9 (W : Workers) (s : AgentState) :
    (research_node W s).next_agent = "manager" ∧
    (analysis_node W s).next_agent = "manager" ∧
    (writing_node W s).next_agent = "manager" ∧
    (finalize_node s).next_agent = "end" ∧
    nextNode Node.research s = some Node.manager ∧
    nextNode Node.analysis s = some Node.manager ∧
    nextNode Node.writing s = some Node.manager ∧
    nextNode Node.finalize s = none :=
  ⟨rfl, rfl, rfl, rfl, rfl, rfl, rfl, rfl⟩

/-- C10: `monitor_progress` is total even for an empty plan — with zero plan
steps the division is guarded and the percentage is 0 — and for every plan
and execution log it reports the plan length as `total_steps`, the log length
as `completed_steps`, their (integer) difference as `remaining_steps`, and
completed over total times 100 as the percentage when the plan is
non-empty. -/
theorem claim_C10 (plan : List PlanStep) (log : List StepResult) :
    (monitor_progress plan log).total_steps = plan.length ∧
    (monitor_progress plan log).completed_steps = log.length ∧
    (monitor_progress plan log).remaining_steps = (plan.length : Int) - (log.length : Int) ∧
    (plan.length = 0 → (monitor_progress plan log).progress_percentage = 0) ∧
    (plan.length ≠ 0 →
      (monitor_progress plan log).progress_percentage =
        (log.length : ℚ) / (plan.length : ℚ) * 100) := by
  refine ⟨rfl, rfl, rfl, ?_, ?_⟩
  · intro h
    simp [monitor_progress, h]
  · intro h
    simp [monitor_progress, Nat.pos_of_ne_zero h]
